import Mathlib

/-!
Verification development for the job-portal-crawler repository.

Shallow embedding of the ingestion pipeline: the fetcher retry logic
(`src/utils/helpers.py`, `src/crawler/base_crawler.py`), the deduplicating
processor (`src/data/processor.py`), the JSON store with atomic writes and
backup rotation (`src/data/database.py`), the refresh trigger's
single-flight check (`src/api/routes_refresh.py`), the detail-fetch entry
point (`src/api/routes_details.py`), and the main-content selector
(`src/crawler/detail_crawler.py`).

Python dicts read from the category files are modelled as structures with
`Option`-valued fields (`none` models both a missing key and a JSON null,
which the source only ever distinguishes through `dict.get` with a default).
-/

namespace JobPortal

/-! ## String helpers

Implemented over the character list underlying a `String`, so that every
definition evaluates by kernel reduction. -/

/-- Lower-casing, as Python `str.lower()` on the class attribute join. -/
def strLower (s : String) : String := ⟨s.data.map Char.toLower⟩

/-- Contiguous-sublist test on character lists. -/
def infixCheck (pat : List Char) : List Char → Bool
  | [] => pat.isEmpty
  | x :: xs => pat.isPrefixOf (x :: xs) || infixCheck pat xs

/-- Python `pat in s` substring containment. -/
def strContains (s pat : String) : Bool := infixCheck pat.data s.data

/-- `url.startswith(('http://', 'https://'))` from the processor validators. -/
def startsWithHttp (u : String) : Bool :=
  "http://".data.isPrefixOf u.data || "https://".data.isPrefixOf u.data

/-- Split a character list at every occurrence of the separator (Python
`str.split(sep)` with a one-character separator). -/
def splitOnChar (c : Char) : List Char → List (List Char)
  | [] => [[]]
  | x :: xs =>
      let r := splitOnChar c xs
      if x == c then [] :: r
      else
        match r with
        | [] => [[x]]
        | h :: t => (x :: h) :: t

/-- Join character lists with the separator between them. -/
def joinWithChar (c : Char) : List (List Char) → List Char
  | [] => []
  | [x] => x
  | x :: xs => x ++ c :: joinWithChar c xs

/-! ## Record model (`src/data/models.py`)

`JobEntry` carries exactly the dataclass fields.  `detailed_info` is a
free-form dict in the source; its content never influences the control flow
under verification, so the payload is abstracted to a `String`. -/

structure JobEntry where
  id : String
  portal_name : String
  title : String
  organization : String
  url : String
  discovered_at : String
  post_date : Option String := none
  last_date : Option String := none
  location : Option String := none
  category : Option String := none
  description : Option String := none
  status : String := "active"
  detailed_info : Option String := none
deriving DecidableEq, Repr

/-- A record as stored in the `jobs` category file: the serialized
`JobEntry` fields plus the keys the processor adds on the fly.  Every field
is optional because a stored dict may lack any key. -/
structure StoredJob where
  id : Option String := none
  portal_name : Option String := none
  title : Option String := none
  organization : Option String := none
  url : Option String := none
  discovered_at : Option String := none
  post_date : Option String := none
  last_date : Option String := none
  location : Option String := none
  category : Option String := none
  description : Option String := none
  status : Option String := none
  detailed_info : Option String := none
  is_new : Option Bool := none
  is_duplicate : Option Bool := none
  previous_discovered_at : Option String := none
  times_seen : Option Nat := none
deriving DecidableEq, Repr

/-- `JobEntry.to_dict` (dataclass `asdict`): every dataclass field is
serialized; the processor-added keys are absent. -/
def JobEntry.toDict (j : JobEntry) : StoredJob :=
  { id := some j.id
    portal_name := some j.portal_name
    title := some j.title
    organization := some j.organization
    url := some j.url
    discovered_at := some j.discovered_at
    post_date := j.post_date
    last_date := j.last_date
    location := j.location
    category := j.category
    description := j.description
    status := some j.status
    detailed_info := j.detailed_info }

/-! ## Processor (`src/data/processor.py`) -/

/-- `DataProcessor._validate_job`: id, title and url non-empty and the url
uses an http(s) scheme. -/
def validJob (j : JobEntry) : Bool :=
  !(j.id == "") && !(j.title == "") && !(j.url == "") && startsWithHttp j.url

/-- `existing_by_id = {job.get('id'): job for job in existing_jobs}` —
a dict comprehension keyed by id, where a later record with the same id
overrides an earlier one; lookup of `i` therefore returns the last record
whose id is `i`. -/
def lookupById (l : List StoredJob) (i : String) : Option StoredJob :=
  (l.filter (fun s => s.id == some i)).getLast?

/-- The dict built for one incoming entry in the `process_jobs` loop:
`job.to_dict()` plus the duplicate/new marking.  In the duplicate branch
the source carries over `old_job.get('discovered_at', '')` and
`old_job.get('times_seen', 1) + 1` from the previously stored record. -/
def markJob (byId : String → Option StoredJob) (j : JobEntry) : StoredJob :=
  match byId j.id with
  | some old =>
      { j.toDict with
        is_new := some false
        is_duplicate := some true
        previous_discovered_at := some (old.discovered_at.getD "")
        times_seen := some (old.times_seen.getD 1 + 1) }
  | none =>
      { j.toDict with
        is_new := some true
        is_duplicate := some false
        times_seen := some 1 }

/-- Loop state of `process_jobs`: the `new_jobs` accumulator, the
(shrinking) `existing_jobs` list, the duplicate/updated counters and the
in-memory id cache for the `jobs` category. -/
structure ProcAcc where
  newJobs : List StoredJob
  existing : List StoredJob
  dup : Nat
  upd : Nat
  cache : List String
deriving DecidableEq, Repr

/-- One iteration of the `for job in jobs` loop of `process_jobs`.
`byId` is the `existing_by_id` index, built once before the loop and never
updated inside it. -/
def processStep (byId : String → Option StoredJob) (acc : ProcAcc) (j : JobEntry) :
    ProcAcc :=
  if !(validJob j) then acc
  else
    let d := markJob byId j
    match byId j.id with
    | some _ =>
        { acc with
          newJobs := acc.newJobs ++ [d]
          existing := acc.existing.filter (fun s => !(s.id == some j.id))
          dup := acc.dup + 1
          upd := acc.upd + 1 }
    | none =>
        { acc with
          newJobs := acc.newJobs ++ [d]
          cache := acc.cache ++ [j.id] }

/-- Result of `process_jobs`: the resulting category-file content (unchanged
when no write happened), whether `_write_file` was called, the id cache
after the run, and the returned statistics dict. -/
structure ProcResult where
  file : List StoredJob
  wrote : Bool
  cache : List String
  total : Nat
  newCount : Nat
  duplicates : Nat
  updated : Nat
deriving DecidableEq, Repr

/-- `DataProcessor.process_jobs` over a category file content and the
in-memory id cache.  The final write, when it happens, stores
`new_jobs + existing_jobs`. -/
def processJobs (jobs : List JobEntry) (file : List StoredJob)
    (cache : List String) : ProcResult :=
  if jobs.isEmpty then
    ⟨file, false, cache, 0, 0, 0, 0⟩
  else
    let byId := lookupById file
    let acc := (jobs.foldl (processStep byId) ⟨[], file, 0, 0, cache⟩)
    if acc.newJobs.isEmpty then
      ⟨file, false, acc.cache, jobs.length, acc.newJobs.length - acc.upd,
        acc.dup, acc.upd⟩
    else
      ⟨acc.newJobs ++ acc.existing, true, acc.cache, jobs.length,
        acc.newJobs.length - acc.upd, acc.dup, acc.upd⟩

/-! ## Notifications (`src/data/models.py`, `process_notifications`) -/

structure NotificationEntry where
  id : String
  portal_name : String
  title : String
  url : String
  discovered_at : String
  notification_type : String := "general"
  organization : Option String := none
  description : Option String := none
deriving DecidableEq, Repr

/-- `DataProcessor._validate_notification`. -/
def validNotif (n : NotificationEntry) : Bool :=
  !(n.id == "") && !(n.title == "") && !(n.url == "") && startsWithHttp n.url

/-- Result of `process_notifications` on the notifications category. -/
structure NotifResult where
  file : List NotificationEntry
  wrote : Bool
  cache : List String
  total : Nat
  newCount : Nat
  duplicates : Nat
deriving DecidableEq, Repr

/-- One iteration of the `for notif in notifications` loop: invalid entries
are skipped; an id already in the in-memory cache is counted as a duplicate
and dropped; otherwise the serialized entry is appended and the id cached. -/
def notifStep (acc : List NotificationEntry × List String × Nat)
    (n : NotificationEntry) : List NotificationEntry × List String × Nat :=
  if !(validNotif n) then acc
  else if acc.2.1.contains n.id then (acc.1, acc.2.1, acc.2.2 + 1)
  else (acc.1 ++ [n], acc.2.1 ++ [n.id], acc.2.2)

/-- `DataProcessor.process_notifications`: new notifications are stored via
`insert_many`, which prepends them (in received order) to the file; entries
whose id is cached are not written at all. -/
def processNotifications (ns : List NotificationEntry)
    (file : List NotificationEntry) (cache : List String) : NotifResult :=
  if ns.isEmpty then ⟨file, false, cache, 0, 0, 0⟩
  else
    let acc := ns.foldl notifStep ([], cache, 0)
    if acc.1.isEmpty then
      ⟨file, false, acc.2.1, ns.length, 0, acc.2.2⟩
    else
      ⟨acc.1 ++ file, true, acc.2.1, ns.length, acc.1.length, acc.2.2⟩

/-! ## Store (`src/data/database.py`) -/

/-- Outcome of acquiring the advisory file lock (`FileLock(..., timeout=10)`):
either acquired, or the bounded wait expired and a `Timeout` was raised. -/
inductive LockOutcome
  | acquired
  | timedOut
deriving DecidableEq, Repr

/-- The top-level JSON value found in a category file, as far as
`_read_file` inspects it: a JSON array of records, or anything else. -/
inductive JsonVal (α : Type)
  | arr (entries : List α)
  | nonArray
deriving DecidableEq, Repr

/-- State of a category file on disk: missing, or present with content that
either parses to a JSON value or raises `json.JSONDecodeError` (`none`). -/
inductive FileState (α : Type)
  | missing
  | content (parsed : Option (JsonVal α))
deriving DecidableEq, Repr

/-- `JSONDatabase._read_file`: every failure path — lock timeout (caught by
the blanket `except Exception`), missing file, `JSONDecodeError`, or a
top-level value that is not a list — returns the empty list; only a file
parsing to a JSON array yields its entries. -/
def readFile {α : Type} (lock : LockOutcome) (fs : FileState α) : List α :=
  match lock with
  | .timedOut => []
  | .acquired =>
      match fs with
      | .missing => []
      | .content none => []
      | .content (some .nonArray) => []
      | .content (some (.arr l)) => l

/-- `JSONDatabase.get_all`: read, then `data[:limit]` guarded by Python
truthiness (`if limit:` — a limit of 0 returns everything). -/
def getAll {α : Type} (lock : LockOutcome) (fs : FileState α)
    (limit : Option Nat) : List α :=
  let data := readFile lock fs
  match limit with
  | some n => if n ≠ 0 then data.take n else data
  | none => data

/-! ### Atomic write (`JSONDatabase._write_file`)

The file system visible to `_write_file` is the destination file and the
temporary file; serializing into the temporary file is a plain write (which
may stop half way when the scenario fails there), and `Path.replace` is one
atomic rename step. -/

structure FsState (α : Type) where
  dest : α
  temp : Option α
deriving DecidableEq, Repr

/-- Where, if anywhere, the write attempt fails (`except Exception` around
the whole body). -/
inductive WriteScenario
  | ok
  | failTempWrite
  | failRename
deriving DecidableEq, Repr

/-- Writing the serialized data into the temporary file. -/
def writeTemp {α : Type} (c : α) (s : FsState α) : FsState α :=
  { s with temp := some c }

/-- `temp_path.replace(file_path)`: one atomic rename of the temporary file
over the destination. -/
def renameTempOverDest {α : Type} (s : FsState α) : FsState α :=
  match s.temp with
  | some c => { dest := c, temp := none }
  | none => s

/-- Execution of `_write_file` writing `data` from state `s0`, returning the
boolean result and the list of every intermediate file-system state.  In the
`failTempWrite` scenario the dump stops after writing `halfData`; in the
`failRename` scenario the temporary file is complete but the rename raised
before taking effect. -/
def writeFileRun {α : Type} (data halfData : α) (scen : WriteScenario)
    (s0 : FsState α) : Bool × List (FsState α) :=
  match scen with
  | .ok =>
      let s1 := writeTemp data s0
      let s2 := renameTempOverDest s1
      (true, [s0, s1, s2])
  | .failTempWrite => (false, [s0, writeTemp halfData s0])
  | .failRename => (false, [s0, writeTemp data s0])

/-- `Path.with_suffix('.tmp')` on the final path component: the stem keeps
everything before the last dot (when the name has an extension). -/
def withSuffixTmp (name : String) : String :=
  let parts := splitOnChar '.' name.data
  let stem := if parts.length ≥ 2 then joinWithChar '.' parts.dropLast
              else name.data
  ⟨stem ++ ".tmp".data⟩

/-- `temp_path = file_path.with_suffix('.tmp')`: only the final component of
the path changes, so the temporary file lives in the destination's
directory. -/
def tempPathOf (p : String) : String :=
  let comps := splitOnChar '/' p.data
  ⟨joinWithChar '/'
    (comps.dropLast ++ [(withSuffixTmp ⟨comps.getLastD []⟩).data])⟩

/-! ### Backups and write counters -/

/-- One category of the database, with the pieces of `JSONDatabase` state
that the backup policy reads: the file content, the per-category write
counter, and the backup snapshots in filename (timestamp) order, oldest
first. -/
structure DBCat (α : Type) where
  file : List α
  writeCount : Nat
  backups : List (List α)
  backup_enabled : Bool
  backup_frequency : Nat
  max_backups : Nat
deriving DecidableEq, Repr

/-- `JSONDatabase._cleanup_old_backups`: when more than `max_backups`
snapshots exist, the loop deletes `backups[:-max_backups]`, the oldest
(first in filename-sort order) snapshots.  For `max_backups = 0` the Python
slice `[:-0]` is `[:0]` — empty — so nothing is deleted. -/
def cleanupOldBackups {α : Type} (db : DBCat α) : DBCat α :=
  if db.backups.length > db.max_backups then
    if db.max_backups == 0 then db
    else
      { db with backups := db.backups.drop (db.backups.length - db.max_backups) }
  else db

/-- `JSONDatabase._create_backup`: copy the current file to a timestamped
snapshot, then clean up, provided backups are enabled. -/
def createBackup {α : Type} (db : DBCat α) : DBCat α :=
  if !db.backup_enabled then db
  else cleanupOldBackups { db with backups := db.backups ++ [db.file] }

/-- The backup trigger shared by `insert` and `insert_many`:
`backup_frequency == 0 or write_counts % backup_frequency == 0`. -/
def backupDue {α : Type} (db : DBCat α) : Bool :=
  db.backup_frequency == 0 || db.writeCount % db.backup_frequency == 0

/-- `JSONDatabase.insert` (successful-write path): prepend the entry,
increment the write counter by one, and back up when due. -/
def dbInsert {α : Type} (db : DBCat α) (e : α) : DBCat α :=
  let db1 := { db with file := e :: db.file, writeCount := db.writeCount + 1 }
  if backupDue db1 then createBackup db1 else db1

/-- `JSONDatabase.insert_many` (successful-write path): prepend the entries
in received order, add their count to the write counter, and back up when
due.  An empty batch returns immediately without writing. -/
def dbInsertMany {α : Type} (db : DBCat α) (entries : List α) : DBCat α :=
  if entries.isEmpty then db
  else
    let db1 := { db with file := entries ++ db.file,
                         writeCount := db.writeCount + entries.length }
    if backupDue db1 then createBackup db1 else db1

/-- The write path `process_jobs` actually uses:
`self.db._write_file(self.db.files['jobs'], all_jobs)` — a direct file
write that bypasses the write counter and the backup policy. -/
def dbWriteFileDirect {α : Type} (db : DBCat α) (content : List α) : DBCat α :=
  { db with file := content }

/-- `process_jobs` running against the database: the batch result is written
through `_write_file` directly (when a write is due at all). -/
def dbProcessJobs (db : DBCat StoredJob) (cache : List String)
    (jobs : List JobEntry) : DBCat StoredJob × ProcResult :=
  let r := processJobs jobs db.file cache
  (if r.wrote then dbWriteFileDirect db r.file else db, r)

/-! ## Fetcher (`src/utils/helpers.py`, `src/crawler/base_crawler.py`) -/

/-- What one HTTP GET of the url does on a given attempt. -/
inductive FetchOutcome
  | success (html : String)
  | timeout
  | transportError (msg : String)
deriving DecidableEq, Repr

/-- The crawler statistics the fetcher mutates (`self.stats`). -/
structure CrawlStats where
  pages_crawled : Nat
  errors : List String
deriving DecidableEq, Repr

/-- The body of `BaseCrawler.fetch_page` — the `try/except` around the GET.
`requests.Timeout` and `requests.RequestException` are caught *inside* the
body, which appends to the statistics and returns `None`; no exception
escapes to the decorator for these outcomes, so the result is always
`Except.ok`. -/
def fetchPageBody (url : String) (net : FetchOutcome) (stats : CrawlStats) :
    Except Unit (Option String) × CrawlStats :=
  match net with
  | .success html =>
      (.ok (some html), { stats with pages_crawled := stats.pages_crawled + 1 })
  | .timeout =>
      (.ok none, { stats with errors := stats.errors ++ ["Timeout: " ++ url] })
  | .transportError m =>
      (.ok none,
        { stats with errors := stats.errors ++ ["Request error: " ++ url ++ " - " ++ m] })

/-- The loop of the `retry_on_failure` decorator:
`for attempt in range(max_retries + 1)` — call the wrapped function, return
its value on normal return, and on an escaped exception retry while
`attempt < max_retries`, re-raising on the last attempt.  The wrapped
function may mutate shared state even when it raises, so state is threaded
through every attempt.  Returns the result, the final state, and the number
of calls made. -/
def retryAux {σ ε α : Type} (body : Nat → σ → Except ε α × σ) :
    Nat → σ → Nat → Except ε α × σ × Nat
  | attempt, s, 0 =>
      let r := body attempt s
      (r.1, r.2, attempt + 1)
  | attempt, s, remaining + 1 =>
      let r := body attempt s
      match r.1 with
      | .ok a => (.ok a, r.2, attempt + 1)
      | .error _ => retryAux body (attempt + 1) r.2 remaining

/-- `retry_on_failure(max_retries, ...)` applied to a wrapped function. -/
def retryOnFailure {σ ε α : Type} (maxRetries : Nat)
    (body : Nat → σ → Except ε α × σ) (s : σ) : Except ε α × σ × Nat :=
  retryAux body 0 s maxRetries

/-- `fetch_page` as deployed: the body wrapped in
`@retry_on_failure(max_retries=3, delay=2.0)` (the retry budget is the
decorator argument; the network behaviour on attempt `n` is `net n`). -/
def fetchPage (maxRetries : Nat) (url : String) (net : Nat → FetchOutcome)
    (stats : CrawlStats) : Except Unit (Option String) × CrawlStats × Nat :=
  retryOnFailure maxRetries (fun attempt st => fetchPageBody url (net attempt) st) stats

/-! ## Refresh trigger (`src/api/routes_refresh.py`)

Interleaving model of two `/refresh/now` requests and their background
worker threads.  Program order per request: the handler checks
`refresh_status["in_progress"]` (raising 409 when it is observed true),
then starts the worker thread; the worker's first statement sets
`in_progress = True`, then the pipeline (`CrawlerManager().execute_all()`)
runs, and the `finally` block clears the flag. -/

inductive TrigPhase
  | idle
  | passed
  | spawned
  | rejected
deriving DecidableEq, Repr

inductive WorkPhase
  | notStarted
  | started
  | pipelineRunning
  | finished
deriving DecidableEq, Repr

structure RefreshSt where
  inProgress : Bool
  t1 : TrigPhase
  w1 : WorkPhase
  t2 : TrigPhase
  w2 : WorkPhase
deriving DecidableEq, Repr

def refreshInit : RefreshSt :=
  ⟨false, .idle, .notStarted, .idle, .notStarted⟩

/-- One interleaved step of the two trigger handlers and their workers. -/
inductive RStep : RefreshSt → RefreshSt → Prop
  | check1Pass (s : RefreshSt) : s.t1 = .idle → s.inProgress = false →
      RStep s { s with t1 := .passed }
  | check1Reject (s : RefreshSt) : s.t1 = .idle → s.inProgress = true →
      RStep s { s with t1 := .rejected }
  | spawn1 (s : RefreshSt) : s.t1 = .passed → s.w1 = .notStarted →
      RStep s { s with t1 := .spawned, w1 := .started }
  | begin1 (s : RefreshSt) : s.w1 = .started →
      RStep s { s with w1 := .pipelineRunning, inProgress := true }
  | finish1 (s : RefreshSt) : s.w1 = .pipelineRunning →
      RStep s { s with w1 := .finished, inProgress := false }
  | check2Pass (s : RefreshSt) : s.t2 = .idle → s.inProgress = false →
      RStep s { s with t2 := .passed }
  | check2Reject (s : RefreshSt) : s.t2 = .idle → s.inProgress = true →
      RStep s { s with t2 := .rejected }
  | spawn2 (s : RefreshSt) : s.t2 = .passed → s.w2 = .notStarted →
      RStep s { s with t2 := .spawned, w2 := .started }
  | begin2 (s : RefreshSt) : s.w2 = .started →
      RStep s { s with w2 := .pipelineRunning, inProgress := true }
  | finish2 (s : RefreshSt) : s.w2 = .pipelineRunning →
      RStep s { s with w2 := .finished, inProgress := false }

/-- States reachable from the initial refresh state. -/
def RefreshReachable (s : RefreshSt) : Prop :=
  Relation.ReflTransGen RStep refreshInit s

/-! ## Content selection (`DetailCrawler._select_main_content`)

A parsed page is abstracted to its elements in document order (the order
`soup.find`/`soup.find_all` traverse), each carrying its tag, class list,
id attribute, and visible text (`get_text(strip=True)`).  The `<body>`
element with header/footer/nav/aside decomposed is modelled as the
`bodyCleaned` component (`some` exactly when the page has a body). -/

structure Node where
  tag : String
  classes : List String
  idAttr : Option String
  text : String
deriving DecidableEq, Repr

structure Soup where
  nodes : List Node
  bodyCleaned : Option Node
deriving DecidableEq, Repr

/-- The attribute filter of a `soup.find(tag, attrs)` call. -/
inductive AttrFilter
  | anyAttrs
  | byClass (c : String)
  | byId (i : String)
deriving DecidableEq, Repr

def nodeMatches (f : AttrFilter) (tag : String) (n : Node) : Bool :=
  match f with
  | .anyAttrs => n.tag == tag
  | .byClass c => n.tag == tag && n.classes.contains c
  | .byId i => n.tag == tag && n.idAttr == some i

/-- `soup.find(tag, attrs)`: first matching element in document order. -/
def soupFind (s : Soup) (tag : String) (f : AttrFilter) : Option Node :=
  s.nodes.find? (nodeMatches f tag)

/-- The `content_selectors` priority list of `_select_main_content`. -/
def contentSelectors : List (String × AttrFilter) :=
  [("div", .byClass "site-content"),
   ("div", .byClass "content-area"),
   ("article", .anyAttrs),
   ("div", .byClass "entry-content"),
   ("div", .byClass "post-content"),
   ("main", .anyAttrs),
   ("div", .byId "content")]

/-- First stage of `_select_main_content`: for each selector in priority
order, look at the *first* element matching it; return it when its visible
text exceeds 300 characters, otherwise move to the next selector. -/
def selectFromSelectors (s : Soup) : List (String × AttrFilter) → Option Node
  | [] => none
  | (tag, f) :: rest =>
      match soupFind s tag f with
      | some c => if c.text.length > 300 then some c else selectFromSelectors s rest
      | none => selectFromSelectors s rest

def contentKeywords : List String := ["content", "post", "article", "entry"]

/-- `' '.join(div.get('class', [])).lower()`. -/
def classJoin (n : Node) : String :=
  strLower (String.intercalate " " n.classes)

/-- Second stage: every `div` whose joined class string contains a
content-like keyword *and* whose text exceeds 300 characters. -/
def keywordCandidates (s : Soup) : List Node :=
  s.nodes.filter (fun n =>
    n.tag == "div" &&
    contentKeywords.any (fun k => strContains (classJoin n) k) &&
    n.text.length > 300)

/-- `candidates.sort(key=tlen, reverse=True); candidates[0]` — Python's sort
is stable, so this is the earliest element (in document order) among those
of maximal text length. -/
def pickLargest : List Node → Option Node
  | [] => none
  | n :: rest =>
      match pickLargest rest with
      | none => some n
      | some b => if b.text.length > n.text.length then some b else some n

/-- `DetailCrawler._select_main_content`. -/
def selectMainContent (s : Soup) : Option Node :=
  match selectFromSelectors s contentSelectors with
  | some n => some n
  | none =>
      match pickLargest (keywordCandidates s) with
      | some n => some n
      | none => s.bodyCleaned

/-- The keyword-scan stage as the claim words it: among all `div`
containers whose class attribute contains a content-like keyword, the one
with the most text — with no text-length threshold.  (Definition follows
the claim, for comparison with `selectMainContent`.) -/
def keywordCandidatesClaimed (s : Soup) : List Node :=
  s.nodes.filter (fun n =>
    n.tag == "div" &&
    contentKeywords.any (fun k => strContains (classJoin n) k))

/-- The selection procedure exactly as the claim states it (stage two has
no 300-character threshold).  Definition follows the claim's words. -/
def selectMainContentClaimed (s : Soup) : Option Node :=
  match selectFromSelectors s contentSelectors with
  | some n => some n
  | none =>
      match pickLargest (keywordCandidatesClaimed s) with
      | some n => some n
      | none => s.bodyCleaned

/-! ## Detail crawling and the detail-fetch entry point
(`DetailCrawler`, `src/api/routes_details.py`)

Only the parts of the extracted details dict that `fetch_details` inspects
are modelled: the dict returned by `_extract_job_details` (and its result /
admit-card analogues) always carries the `full_description` key — possibly
with an empty value — and is never the empty dict, while a failed page
fetch makes `crawl_*_details` return the empty dict `{}`. -/

structure JobDetails where
  url : String
  full_description : String
deriving DecidableEq, Repr

/-- `_extract_job_details` restricted to the fields under verification:
when no content region is found the initialized dict (empty description) is
returned; otherwise the full description is the clean text of the selected
region. -/
def extractJobDetails (s : Soup) (url : String) : JobDetails :=
  match selectMainContent s with
  | none => { url := url, full_description := "" }
  | some a => { url := url, full_description := a.text }

/-- What one extraction strategy call observably does, as seen by
`fetch_details`: it raises, returns the empty dict `{}` (fetch failure), or
returns a populated details dict (which always carries the
`full_description` key). -/
inductive StratOutcome
  | raised
  | emptyDict
  | dict (d : JobDetails)
deriving DecidableEq, Repr

/-- `DetailCrawler.crawl_job_details`: `{}` when the page fetch fails,
otherwise the extracted dict. -/
def crawlJobDetails (fetched : Option Soup) (url : String) : StratOutcome :=
  match fetched with
  | none => .emptyDict
  | some soup => .dict (extractJobDetails soup url)

/-- The errors `fetch_details` can answer with: HTTP 400 from the final
`if not details` guard, HTTP 500 from the blanket exception handler. -/
inductive ApiErr
  | badRequest
  | serverError
deriving DecidableEq, Repr

/-- `fetch_details` (`src/api/routes_details.py`): the three strategy blocks
in source order.  In each block, `if details and ("full_description" in
details or "description" in details)` fixes the reported content type —
with the extractors above this test is key presence, true for every
populated dict; `elif content_type == <hint>` raises (→ 500) on an explicit
hint; exceptions in `auto` mode are swallowed for job/result and re-raised
as `ValueError` (→ 500) for admit_card; an empty dict after all blocks is
the 400 answer. -/
def fetchDetails (ct : String) (jobO resO admO : StratOutcome) :
    Except ApiErr (String × JobDetails) :=
  -- Block 1: job
  let step1 : Except ApiErr (Option JobDetails × String) :=
    if ct == "job" || ct == "auto" then
      match jobO with
      | .raised => if ct != "auto" then .error .serverError else .ok (none, ct)
      | .emptyDict => if ct == "job" then .error .serverError else .ok (none, ct)
      | .dict d => .ok (some d, "job")
    else .ok (none, ct)
  match step1 with
  | .error e => .error e
  | .ok (details1, ct1) =>
    -- Block 2: result
    let step2 : Except ApiErr (Option JobDetails × String) :=
      if details1.isNone && (ct1 == "result" || ct1 == "auto") then
        match resO with
        | .raised => if ct1 != "auto" then .error .serverError else .ok (none, ct1)
        | .emptyDict => if ct1 == "result" then .error .serverError else .ok (none, ct1)
        | .dict d => .ok (some d, "result")
      else .ok (details1, ct1)
    match step2 with
    | .error e => .error e
    | .ok (details2, ct2) =>
      -- Block 3: admit_card
      let step3 : Except ApiErr (Option JobDetails × String) :=
        if details2.isNone && (ct2 == "admit_card" || ct2 == "auto") then
          match admO with
          | .raised => .error .serverError
          | .emptyDict => if ct2 == "admit_card" then .error .serverError else .ok (none, ct2)
          | .dict d => .ok (some d, "admit_card")
        else .ok (details2, ct2)
      match step3 with
      | .error e => .error e
      | .ok (none, _) => .error .badRequest
      | .ok (some d, ct3) => .ok (ct3, d)

/-! ## Lemmas about the processor loop -/

theorem markJob_id (byId : String → Option StoredJob) (j : JobEntry) :
    (markJob byId j).id = some j.id := by
  unfold markJob
  cases byId j.id <;> rfl

theorem processStep_newJobs (byId : String → Option StoredJob) (acc : ProcAcc)
    (j : JobEntry) :
    (processStep byId acc j).newJobs =
      if validJob j then acc.newJobs ++ [markJob byId j] else acc.newJobs := by
  unfold processStep
  cases h : validJob j
  · simp [h]
  · cases hb : byId j.id <;> simp [h, hb]

theorem processStep_existing (byId : String → Option StoredJob) (acc : ProcAcc)
    (j : JobEntry) :
    (processStep byId acc j).existing =
      if validJob j && (byId j.id).isSome then
        acc.existing.filter (fun s => !(s.id == some j.id))
      else acc.existing := by
  unfold processStep
  cases h : validJob j
  · simp [h]
  · cases hb : byId j.id <;> simp [h, hb]

theorem processStep_cache (byId : String → Option StoredJob) (acc : ProcAcc)
    (j : JobEntry) :
    (processStep byId acc j).cache =
      if validJob j && (byId j.id).isNone then acc.cache ++ [j.id]
      else acc.cache := by
  unfold processStep
  cases h : validJob j
  · simp [h]
  · cases hb : byId j.id <;> simp [h, hb]

theorem foldl_newJobs (byId : String → Option StoredJob) :
    ∀ (jobs : List JobEntry) (acc : ProcAcc),
      (jobs.foldl (processStep byId) acc).newJobs =
        acc.newJobs ++ (jobs.filter (fun j => validJob j)).map (markJob byId)
  | [], acc => by simp
  | j :: rest, acc => by
      rw [List.foldl_cons, foldl_newJobs byId rest, processStep_newJobs]
      cases h : validJob j <;> simp [h, List.filter_cons]

theorem foldl_existing (byId : String → Option StoredJob) :
    ∀ (jobs : List JobEntry) (acc : ProcAcc),
      (jobs.foldl (processStep byId) acc).existing =
        acc.existing.filter (fun s =>
          !(jobs.any (fun j =>
              validJob j && (byId j.id).isSome && s.id == some j.id)))
  | [], acc => by simp
  | j :: rest, acc => by
      rw [List.foldl_cons, foldl_existing byId rest, processStep_existing]
      cases h : validJob j && (byId j.id).isSome
      · rw [if_neg (by simp [h])]
        apply List.filter_congr
        intro s _
        simp only [List.any_cons, Bool.not_or]
        rw [show (validJob j && (byId j.id).isSome && (s.id == some j.id)) = false by
              cases hv : validJob j <;> cases hs : (byId j.id).isSome <;>
                simp_all]
        simp
      · rw [if_pos (by simp [h]), List.filter_filter]
        apply List.filter_congr
        intro s _
        simp only [List.any_cons, Bool.not_or]
        rw [show (validJob j && (byId j.id).isSome && (s.id == some j.id)) =
              (s.id == some j.id) by rw [h, Bool.true_and]]
        rw [Bool.and_comm]

theorem foldl_cache (byId : String → Option StoredJob) :
    ∀ (jobs : List JobEntry) (acc : ProcAcc),
      (jobs.foldl (processStep byId) acc).cache =
        acc.cache ++
          ((jobs.filter (fun j => validJob j && (byId j.id).isNone)).map
            (fun j => j.id))
  | [], acc => by simp
  | j :: rest, acc => by
      rw [List.foldl_cons, foldl_cache byId rest, processStep_cache]
      cases h : validJob j && (byId j.id).isNone <;>
        simp [h, List.filter_cons]

/-- When `process_jobs` writes, the written file is the marked incoming
entries (in arrival order, invalid entries dropped) followed by the
existing records that no valid incoming duplicate removed. -/
theorem processJobs_file_decomposition (jobs : List JobEntry)
    (file : List StoredJob) (cache : List String)
    (h : (processJobs jobs file cache).wrote = true) :
    (processJobs jobs file cache).file =
      (jobs.filter (fun j => validJob j)).map (markJob (lookupById file)) ++
        file.filter (fun s =>
          !(jobs.any (fun j => validJob j &&
              (lookupById file j.id).isSome && s.id == some j.id))) := by
  unfold processJobs at h ⊢
  cases hj : jobs.isEmpty
  · simp only [hj, Bool.false_eq_true, if_false] at h ⊢
    cases hn : (jobs.foldl (processStep (lookupById file))
        ⟨[], file, 0, 0, cache⟩).newJobs.isEmpty
    · simp only [hn, Bool.false_eq_true, if_false] at h ⊢
      rw [foldl_newJobs, foldl_existing]
      simp
    · simp only [hn, if_true] at h
      exact absurd h (by decide)
  · simp only [hj, if_true] at h
    exact absurd h (by decide)

/-- The id cache after `process_jobs`: the previous cache extended by the id
of every valid incoming entry whose id was not already stored. -/
theorem processJobs_cache_eq (jobs : List JobEntry) (file : List StoredJob)
    (cache : List String) :
    (processJobs jobs file cache).cache =
      cache ++
        ((jobs.filter (fun j =>
            validJob j && (lookupById file j.id).isNone)).map (fun j => j.id)) := by
  unfold processJobs
  cases hj : jobs.isEmpty
  · simp only [hj, Bool.false_eq_true, if_false]
    cases hn : (jobs.foldl (processStep (lookupById file))
        ⟨[], file, 0, 0, cache⟩).newJobs.isEmpty <;>
      simp only [hn, Bool.false_eq_true, if_false, if_true] <;>
      rw [foldl_cache]
  · have hje : jobs = [] := List.isEmpty_iff.mp hj
    subst hje
    simp

/-- Concrete values: a stored record enriched with `detailed_info`, and a
listing-crawl entry re-discovering the same id. -/
def oldEnriched : StoredJob :=
  { id := some "a", portal_name := some "p", title := some "T",
    url := some "http://u", discovered_at := some "2024-01-01",
    detailed_info := some "ENRICHED", times_seen := some 3 }

def jdup : JobEntry :=
  { id := "a", portal_name := "p", title := "T2", organization := "O",
    url := "http://u2", discovered_at := "2024-02-02" }

/-- C2 counterexample: a record previously enriched with `detailed_info`
(`oldEnriched`) is re-discovered by a listing crawl; the written record is
rebuilt from the freshly crawled entry, whose `detailed_info` is null — the
stored enrichment is not preserved. -/
theorem rediscovery_drops_detailed_info_cex :
    oldEnriched.detailed_info = some "ENRICHED" ∧
    (processJobs [jdup] [oldEnriched] []).wrote = true ∧
    (processJobs [jdup] [oldEnriched] []).file.map (fun s => s.id) = [some "a"] ∧
    (processJobs [jdup] [oldEnriched] []).file.map (fun s => s.detailed_info) =
      [none] ∧
    (processJobs [jdup] [oldEnriched] []).file.map (fun s => s.title) =
      [some "T2"] := by decide

/-- C2 (amended): re-processing a batch containing one valid entry whose id
is already stored rewrites the category file as the *fresh* entry's
serialization with exactly the duplicate-marking fields overridden
(`is_new`, `is_duplicate`, `previous_discovered_at` carried from the old
record, `times_seen` incremented from the old record); every other stored
record is kept, and the identity persists — but no previously stored field
value (in particular `detailed_info`) survives into the written record. -/
theorem duplicate_rewrite_frame (j : JobEntry) (old : StoredJob)
    (file : List StoredJob) (cache : List String)
    (hv : validJob j = true) (hl : lookupById file j.id = some old) :
    processJobs [j] file cache =
      ⟨{ j.toDict with
          is_new := some false
          is_duplicate := some true
          previous_discovered_at := some (old.discovered_at.getD "")
          times_seen := some (old.times_seen.getD 1 + 1) } ::
        file.filter (fun s => !(s.id == some j.id)),
        true, cache, 1, 0, 1, 1⟩ := by
  unfold processJobs
  simp [processStep, markJob, hv, hl]

/-- Concrete values for witnesses: a stored file with ids `a`, `b`; one
incoming duplicate of `a` and one incoming new entry `c`. -/
def sA : StoredJob :=
  { id := some "a", discovered_at := some "d0", title := some "A",
    url := some "http://a" }

def sB : StoredJob :=
  { id := some "b", discovered_at := some "d1" }

def jW1 : JobEntry :=
  { id := "a", portal_name := "p", title := "A2", organization := "",
    url := "http://a2", discovered_at := "d2" }

def jW2 : JobEntry :=
  { id := "c", portal_name := "p", title := "C", organization := "",
    url := "http://c", discovered_at := "d3" }

/-- C4: when the Processor writes a category file, it equals the accepted
incoming entries (marked, in arrival order) followed by the existing
records that were not re-discovered, in their previous relative order;
consequently every id present in the category before processing is still
present after. -/
theorem process_jobs_front_insertion (jobs : List JobEntry)
    (file : List StoredJob) (cache : List String)
    (h : (processJobs jobs file cache).wrote = true) :
    (processJobs jobs file cache).file =
      (jobs.filter (fun j => validJob j)).map (markJob (lookupById file)) ++
        file.filter (fun s =>
          !(jobs.any (fun j => validJob j &&
              (lookupById file j.id).isSome && s.id == some j.id))) ∧
    ∀ i : String, (∃ s ∈ file, s.id = some i) →
      ∃ t ∈ (processJobs jobs file cache).file, t.id = some i := by
  have hdec := processJobs_file_decomposition jobs file cache h
  refine ⟨hdec, ?_⟩
  rintro i ⟨s, hsmem, hsid⟩
  by_cases hc : (jobs.any (fun j => validJob j &&
      (lookupById file j.id).isSome && s.id == some j.id)) = true
  · obtain ⟨j, hjmem, hj⟩ := List.any_eq_true.mp hc
    rw [Bool.and_eq_true, Bool.and_eq_true] at hj
    have hv : validJob j = true := hj.1.1
    have hsj : s.id = some j.id := eq_of_beq hj.2
    have hij : j.id = i := by
      rw [hsid] at hsj
      exact (Option.some.inj hsj).symm
    refine ⟨markJob (lookupById file) j, ?_, ?_⟩
    · rw [hdec]
      exact List.mem_append_left _
        (List.mem_map_of_mem _ (List.mem_filter.mpr ⟨hjmem, hv⟩))
    · rw [markJob_id, hij]
  · refine ⟨s, ?_, hsid⟩
    rw [hdec]
    apply List.mem_append_right
    refine List.mem_filter.mpr ⟨hsmem, ?_⟩
    have hc2 : (jobs.any (fun j => validJob j &&
        (lookupById file j.id).isSome && s.id == some j.id)) = false := by
      revert hc
      cases jobs.any (fun j => validJob j &&
        (lookupById file j.id).isSome && s.id == some j.id) <;> simp
    rw [hc2]
    rfl

/-- Witness for `process_jobs_front_insertion` at concrete input. -/
theorem process_jobs_front_insertion_witness :
    (processJobs [jW1, jW2] [sA, sB] []).wrote = true ∧
    ((processJobs [jW1, jW2] [sA, sB] []).file =
      ([jW1, jW2].filter (fun j => validJob j)).map
          (markJob (lookupById [sA, sB])) ++
        [sA, sB].filter (fun s =>
          !([jW1, jW2].any (fun j => validJob j &&
              (lookupById [sA, sB] j.id).isSome && s.id == some j.id))) ∧
    ∀ i : String, (∃ s ∈ [sA, sB], s.id = some i) →
      ∃ t ∈ (processJobs [jW1, jW2] [sA, sB] []).file, t.id = some i) :=
  ⟨by decide, process_jobs_front_insertion [jW1, jW2] [sA, sB] [] (by decide)⟩

/-- C3 (amended): for the jobs category (results and admit cards are
processed by textually identical logic), a valid incoming entry whose id is
already stored is rewritten with `previous_discovered_at` carried from the
stored record, `times_seen` incremented from the stored value (default 1),
`is_duplicate=true`, and lands in the front block of the written list; a
valid entry with an unseen id gets `is_new=true`, `times_seen=1`, and its
id is appended to the in-memory id cache.  The notifications category does
not follow this rule (see the counterexample). -/
theorem process_jobs_duplicate_marking (jobs : List JobEntry)
    (file : List StoredJob) (cache : List String) :
    (∀ j old, validJob j = true → lookupById file j.id = some old →
      markJob (lookupById file) j =
        { j.toDict with
            is_new := some false
            is_duplicate := some true
            previous_discovered_at := some (old.discovered_at.getD "")
            times_seen := some (old.times_seen.getD 1 + 1) }) ∧
    (∀ j, validJob j = true → lookupById file j.id = none →
      markJob (lookupById file) j =
        { j.toDict with
            is_new := some true
            is_duplicate := some false
            times_seen := some 1 }) ∧
    (processJobs jobs file cache).cache =
      cache ++ ((jobs.filter (fun j =>
          validJob j && (lookupById file j.id).isNone)).map (fun j => j.id)) ∧
    ((processJobs jobs file cache).wrote = true →
      ∀ j ∈ jobs, validJob j = true →
        markJob (lookupById file) j ∈
          (processJobs jobs file cache).file.take
            ((jobs.filter (fun k => validJob k)).length)) := by
  refine ⟨?_, ?_, processJobs_cache_eq jobs file cache, ?_⟩
  · intro j old _ hl
    unfold markJob
    rw [hl]
  · intro j _ hl
    unfold markJob
    rw [hl]
  · intro hw j hjmem hv
    rw [processJobs_file_decomposition jobs file cache hw]
    rw [show ((jobs.filter (fun k => validJob k)).length) =
        ((jobs.filter (fun k => validJob k)).map
          (markJob (lookupById file))).length by rw [List.length_map]]
    rw [List.take_left]
    exact List.mem_map_of_mem _ (List.mem_filter.mpr ⟨hjmem, hv⟩)

/-- Witness for `process_jobs_duplicate_marking` at concrete input. -/
theorem process_jobs_duplicate_marking_witness :
    markJob (lookupById [sA, sB]) jW1 =
      { jW1.toDict with
          is_new := some false
          is_duplicate := some true
          previous_discovered_at := some (sA.discovered_at.getD "")
          times_seen := some (sA.times_seen.getD 1 + 1) } ∧
    markJob (lookupById [sA, sB]) jW2 =
      { jW2.toDict with
          is_new := some true
          is_duplicate := some false
          times_seen := some 1 } ∧
    markJob (lookupById [sA, sB]) jW1 ∈
      (processJobs [jW1, jW2] [sA, sB] []).file.take
        (([jW1, jW2].filter (fun k => validJob k)).length) :=
  ⟨(process_jobs_duplicate_marking [jW1, jW2] [sA, sB] []).1 jW1 sA (by decide)
      (by decide),
    (process_jobs_duplicate_marking [jW1, jW2] [sA, sB] []).2.1 jW2 (by decide)
      (by decide),
    (process_jobs_duplicate_marking [jW1, jW2] [sA, sB] []).2.2.2 (by decide)
      jW1 (by simp) (by decide)⟩

/-- Concrete notification values: a stored notification re-discovered by an
incoming entry with the same id (the id is also in the run's id cache). -/
def notifOld : NotificationEntry :=
  { id := "n1", portal_name := "p", title := "N", url := "http://n",
    discovered_at := "t0" }

def notifDup : NotificationEntry :=
  { id := "n1", portal_name := "p", title := "N again", url := "http://n2",
    discovered_at := "t1" }

/-- C3 counterexample: in the notifications category a valid incoming entry
whose id already exists is dropped entirely — the file is not rewritten, the
entry is not repositioned to the front, and no `previous_discovered_at` /
`times_seen` / `is_duplicate` marking exists — contradicting the claim's
"for every category". -/
theorem notification_duplicate_dropped_cex :
    validNotif notifDup = true ∧
    (processNotifications [notifDup] [notifOld] ["n1"]).file = [notifOld] ∧
    (processNotifications [notifDup] [notifOld] ["n1"]).wrote = false ∧
    (processNotifications [notifDup] [notifOld] ["n1"]).duplicates = 1 := by
  decide

/-- Witness for `duplicate_rewrite_frame` at concrete input. -/
theorem duplicate_rewrite_frame_witness :
    validJob jdup = true ∧
    lookupById [oldEnriched] jdup.id = some oldEnriched ∧
    processJobs [jdup] [oldEnriched] [] =
      ⟨{ jdup.toDict with
          is_new := some false
          is_duplicate := some true
          previous_discovered_at := some (oldEnriched.discovered_at.getD "")
          times_seen := some (oldEnriched.times_seen.getD 1 + 1) } ::
        [oldEnriched].filter (fun s => !(s.id == some jdup.id)),
        true, [], 1, 0, 1, 1⟩ :=
  ⟨by decide, by decide,
    duplicate_rewrite_frame jdup oldEnriched [oldEnriched] [] (by decide)
      (by decide)⟩

/-! ## Claim theorems: store -/

/-- C5: `_write_file` serializes to a temporary file and installs it with
one atomic rename: at every intermediate file-system state the destination
holds either the complete old or the complete new content, and on failure
the result is `False` with the destination unchanged.  The temporary path
differs from the destination only in its final component, so it lives in
the same directory (`data/jobs.json ↦ data/jobs.tmp`). -/
theorem write_file_atomic {α : Type} (oldC newC halfC : α)
    (scen : WriteScenario) :
    (∀ s ∈ (writeFileRun newC halfC scen ⟨oldC, none⟩).2,
        s.dest = oldC ∨ s.dest = newC) ∧
    ((writeFileRun newC halfC scen ⟨oldC, none⟩).1 = false →
      ((writeFileRun newC halfC scen ⟨oldC, none⟩).2.getLast?.map
          (fun s => s.dest)) = some oldC) ∧
    tempPathOf "data/jobs.json" = "data/jobs.tmp" := by
  refine ⟨?_, ?_, by decide⟩
  · intro s hs
    cases scen
    · simp only [writeFileRun, writeTemp, renameTempOverDest, List.mem_cons,
        List.not_mem_nil, or_false] at hs
      rcases hs with rfl | rfl | rfl
      · exact Or.inl rfl
      · exact Or.inl rfl
      · exact Or.inr rfl
    · simp only [writeFileRun, writeTemp, List.mem_cons, List.not_mem_nil,
        or_false] at hs
      rcases hs with rfl | rfl
      · exact Or.inl rfl
      · exact Or.inl rfl
    · simp only [writeFileRun, writeTemp, List.mem_cons, List.not_mem_nil,
        or_false] at hs
      rcases hs with rfl | rfl
      · exact Or.inl rfl
      · exact Or.inl rfl
  · intro hf
    cases scen
    · simp [writeFileRun] at hf
    · simp [writeFileRun, writeTemp]
    · simp [writeFileRun, writeTemp]

/-- Witness for `write_file_atomic` at concrete input. -/
theorem write_file_atomic_witness :
    (∀ s ∈ (writeFileRun (α := Nat) 1 2 .failTempWrite ⟨0, none⟩).2,
        s.dest = 0 ∨ s.dest = 1) ∧
    ((writeFileRun (α := Nat) 1 2 .failTempWrite ⟨0, none⟩).1 = false →
      ((writeFileRun (α := Nat) 1 2 .failTempWrite ⟨0, none⟩).2.getLast?.map
          (fun s => s.dest)) = some 0) ∧
    tempPathOf "data/jobs.json" = "data/jobs.tmp" :=
  write_file_atomic 0 1 2 .failTempWrite

/-- C10: store reads are total — a missing file, unparseable content, a
non-list top-level value, or a lock timeout are all observed as the empty
category, by `_read_file` and hence by `get_all` for every limit. -/
theorem store_reads_total {α : Type} (lock : LockOutcome) (fs : FileState α)
    (limit : Option Nat) :
    (fs = .missing → getAll lock fs limit = []) ∧
    (fs = .content none → getAll lock fs limit = []) ∧
    (fs = .content (some .nonArray) → getAll lock fs limit = []) ∧
    (lock = .timedOut → getAll lock fs limit = []) ∧
    (∀ l, lock = .acquired → fs = .content (some (.arr l)) →
      readFile lock fs = l) ∧
    (getAll lock fs limit = [] ∨
      ∃ l, fs = FileState.content (some (JsonVal.arr l))) := by
  refine ⟨?_, ?_, ?_, ?_, ?_, ?_⟩
  · rintro rfl
    cases lock <;> cases limit <;> simp [getAll, readFile]
  · rintro rfl
    cases lock <;> cases limit <;> simp [getAll, readFile]
  · rintro rfl
    cases lock <;> cases limit <;> simp [getAll, readFile]
  · rintro rfl
    cases limit <;> simp [getAll, readFile]
  · rintro l rfl rfl
    rfl
  · cases fs with
    | missing =>
        left
        cases lock <;> cases limit <;> simp [getAll, readFile]
    | content p =>
        cases p with
        | none =>
            left
            cases lock <;> cases limit <;> simp [getAll, readFile]
        | some v =>
            cases v with
            | arr l => exact Or.inr ⟨l, rfl⟩
            | nonArray =>
                left
                cases lock <;> cases limit <;> simp [getAll, readFile]

/-- Witness for `store_reads_total` at concrete input. -/
theorem store_reads_total_witness :
    getAll (α := Nat) .acquired (.content none) (some 0) = [] :=
  (store_reads_total .acquired (.content none) (some 0)).2.1 rfl

/-- `createBackup` never touches the write counter. -/
theorem createBackup_writeCount {α : Type} (d : DBCat α) :
    (createBackup d).writeCount = d.writeCount := by
  unfold createBackup cleanupOldBackups
  split_ifs <;> rfl

/-- A backup snapshot is the file at backup time, and it survives the
rotation (which only deletes the oldest snapshots). -/
theorem createBackup_getLast {α : Type} (db : DBCat α)
    (he : db.backup_enabled = true) :
    (createBackup db).backups.getLast? = some db.file := by
  unfold createBackup
  rw [he]
  simp only [Bool.not_true, Bool.false_eq_true, if_false]
  unfold cleanupOldBackups
  by_cases h1 : (db.backups ++ [db.file]).length > db.max_backups
  · rw [if_pos (by simpa using h1)]
    by_cases h0 : db.max_backups = 0
    · rw [if_pos (by simpa using h0)]
      dsimp only
      rw [List.getLast?_append_cons]
      rfl
    · rw [if_neg (by simpa using h0)]
      dsimp only
      have hk : (db.backups ++ [db.file]).length - db.max_backups ≤
          db.backups.length := by
        have hmb : 1 ≤ db.max_backups := Nat.one_le_iff_ne_zero.mpr h0
        simp only [List.length_append, List.length_cons, List.length_nil]
        omega
      rw [List.drop_append_of_le_length hk, List.getLast?_append_cons]
      rfl
  · rw [if_neg (by simpa using h1)]
    dsimp only
    rw [List.getLast?_append_cons]
    rfl

/-- C6 (amended): the write counter and backup policy apply to the
`insert` / `insert_many` paths — `insert` adds one per write, `insert_many`
adds the *entry count* of the batch (not one per write), and when the
updated counter makes a backup due (frequency 0, or counter a multiple of
the frequency) and backups are enabled, a snapshot of the just-written file
is taken; but the Processor's jobs/results/admit-cards batch writes go
through `_write_file` directly and change neither the counter nor the
backups. -/
theorem backup_counter_behavior (db : DBCat StoredJob) (e : StoredJob)
    (entries : List StoredJob) (cache : List String) (jobs : List JobEntry)
    (h : entries ≠ []) :
    (dbInsert db e).writeCount = db.writeCount + 1 ∧
    (dbInsertMany db entries).writeCount = db.writeCount + entries.length ∧
    (db.backup_enabled = true →
      backupDue { db with file := entries ++ db.file,
                          writeCount := db.writeCount + entries.length } = true →
      (dbInsertMany db entries).backups.getLast? = some (entries ++ db.file)) ∧
    (backupDue { db with file := entries ++ db.file,
                         writeCount := db.writeCount + entries.length } = false →
      (dbInsertMany db entries).backups = db.backups) ∧
    (dbProcessJobs db cache jobs).1.writeCount = db.writeCount ∧
    (dbProcessJobs db cache jobs).1.backups = db.backups := by
  have hne : entries.isEmpty = false := by
    cases entries
    · exact absurd rfl h
    · rfl
  refine ⟨?_, ?_, ?_, ?_, ?_, ?_⟩
  · simp only [dbInsert]
    split_ifs
    · rw [createBackup_writeCount]
    · rfl
  · simp only [dbInsertMany, hne, Bool.false_eq_true, if_false]
    split_ifs
    · rw [createBackup_writeCount]
    · rfl
  · intro he hdue
    simp only [dbInsertMany, hne, Bool.false_eq_true, if_false]
    rw [if_pos hdue]
    exact createBackup_getLast _ he
  · intro hdue
    simp only [dbInsertMany, hne, Bool.false_eq_true, if_false]
    rw [if_neg (by simp [hdue])]
  · unfold dbProcessJobs
    cases hw : (processJobs jobs db.file cache).wrote <;>
      simp [hw, dbWriteFileDirect]
  · unfold dbProcessJobs
    cases hw : (processJobs jobs db.file cache).wrote <;>
      simp [hw, dbWriteFileDirect]

/-- A database state for the witness: four writes counted so far, frequency
five, so the next counted write is due for a backup. -/
def dbW : DBCat StoredJob :=
  { file := [sB], writeCount := 4, backups := [], backup_enabled := true,
    backup_frequency := 5, max_backups := 10 }

/-- Witness for `backup_counter_behavior` at concrete input. -/
theorem backup_counter_behavior_witness :
    (dbInsert dbW sA).writeCount = dbW.writeCount + 1 ∧
    (dbInsertMany dbW [sA]).writeCount = dbW.writeCount + [sA].length ∧
    (dbInsertMany dbW [sA]).backups.getLast? = some ([sA] ++ dbW.file) ∧
    (dbProcessJobs dbW [] [jW2]).1.writeCount = dbW.writeCount ∧
    (dbProcessJobs dbW [] [jW2]).1.backups = dbW.backups :=
  ⟨(backup_counter_behavior dbW sA [sA] [] [jW2] (by decide)).1,
    (backup_counter_behavior dbW sA [sA] [] [jW2] (by decide)).2.1,
    (backup_counter_behavior dbW sA [sA] [] [jW2] (by decide)).2.2.1 (by decide)
      (by decide),
    (backup_counter_behavior dbW sA [sA] [] [jW2] (by decide)).2.2.2.2.1,
    (backup_counter_behavior dbW sA [sA] [] [jW2] (by decide)).2.2.2.2.2⟩

/-- A database with backup frequency 0 ("backup on every write"), backups
enabled, and an empty jobs file. -/
def dbEx6 : DBCat StoredJob :=
  { file := [], writeCount := 0, backups := [], backup_enabled := true,
    backup_frequency := 0, max_backups := 10 }

/-- C6 counterexample: a Processor batch write on a database configured to
back up on every write — the category file changes, yet the write counter
stays at 0 and no backup is created; and a single `insert_many` write of two
entries raises the counter by two, not one. -/
theorem processor_write_skips_backup_cex :
    dbEx6.backup_frequency = 0 ∧
    (dbProcessJobs dbEx6 [] [jW2]).1.file ≠ dbEx6.file ∧
    (dbProcessJobs dbEx6 [] [jW2]).1.writeCount = 0 ∧
    (dbProcessJobs dbEx6 [] [jW2]).1.backups = [] ∧
    (dbInsertMany dbEx6 [sA, sB]).writeCount = 2 := by decide

/-! ## Claim theorems: fetcher, refresh, detail fetch, content selection -/

/-- C1: `fetch_page` catches `requests.Timeout` and
`requests.RequestException` inside its own body and returns `None`, so the
`@retry_on_failure(max_retries=3, delay=2.0)` decorator never observes a
failure: whatever the network does, exactly one attempt is made, and a URL
that times out on every attempt yields `None` after that single attempt
with one failure appended to the statistics — no retry, no backoff. -/
theorem fetch_page_no_retry_on_timeout (maxRetries : Nat) (url : String)
    (net : Nat → FetchOutcome) (stats : CrawlStats) :
    (fetchPage maxRetries url net stats).2.2 = 1 ∧
    fetchPage maxRetries url (fun _ => .timeout) stats =
      (.ok none, { stats with errors := stats.errors ++ ["Timeout: " ++ url] },
        1) := by
  constructor
  · cases maxRetries with
    | zero => rfl
    | succ n =>
        cases hnet : net 0 <;>
          simp [fetchPage, retryOnFailure, retryAux, fetchPageBody, hnet]
  · cases maxRetries with
    | zero => rfl
    | succ n => rfl

/-- C7: the single-flight check is check-then-act — `in_progress` is read in
the request handler but only set inside the spawned worker thread, so an
interleaving in which both triggers check before either worker runs reaches
a state with both pipeline invocations executing concurrently. -/
theorem refresh_race_reachable :
    ∃ s : RefreshSt, RefreshReachable s ∧
      s.w1 = WorkPhase.pipelineRunning ∧ s.w2 = WorkPhase.pipelineRunning := by
  refine ⟨⟨true, .spawned, .pipelineRunning, .spawned, .pipelineRunning⟩,
    ?_, rfl, rfl⟩
  have h1 : RStep refreshInit
      ⟨false, .passed, .notStarted, .idle, .notStarted⟩ :=
    RStep.check1Pass _ rfl rfl
  have h2 : RStep ⟨false, .passed, .notStarted, .idle, .notStarted⟩
      ⟨false, .passed, .notStarted, .passed, .notStarted⟩ :=
    RStep.check2Pass _ rfl rfl
  have h3 : RStep ⟨false, .passed, .notStarted, .passed, .notStarted⟩
      ⟨false, .spawned, .started, .passed, .notStarted⟩ :=
    RStep.spawn1 _ rfl rfl
  have h4 : RStep ⟨false, .spawned, .started, .passed, .notStarted⟩
      ⟨false, .spawned, .started, .spawned, .started⟩ :=
    RStep.spawn2 _ rfl rfl
  have h5 : RStep ⟨false, .spawned, .started, .spawned, .started⟩
      ⟨true, .spawned, .pipelineRunning, .spawned, .started⟩ :=
    RStep.begin1 _ rfl
  have h6 : RStep ⟨true, .spawned, .pipelineRunning, .spawned, .started⟩
      ⟨true, .spawned, .pipelineRunning, .spawned, .pipelineRunning⟩ :=
    RStep.begin2 _ rfl
  exact Relation.ReflTransGen.tail
    (Relation.ReflTransGen.tail
      (Relation.ReflTransGen.tail
        (Relation.ReflTransGen.tail
          (Relation.ReflTransGen.tail
            (Relation.ReflTransGen.tail Relation.ReflTransGen.refl h1) h2) h3)
        h4) h5) h6

/-- A trigger that does observe `in_progress = true` is rejected with 409:
the conflict answer exists in the model exactly when the flag is seen. -/
theorem refresh_reject_on_observed_flag (s : RefreshSt)
    (h1 : s.t2 = TrigPhase.idle) (h2 : s.inProgress = true) :
    RStep s { s with t2 := TrigPhase.rejected } :=
  RStep.check2Reject s h1 h2

/-- Witness for `refresh_reject_on_observed_flag` at concrete input. -/
theorem refresh_reject_on_observed_flag_witness :
    RStep ⟨true, .spawned, .pipelineRunning, .idle, .notStarted⟩
      ⟨true, .spawned, .pipelineRunning, .rejected, .notStarted⟩ :=
  refresh_reject_on_observed_flag
    ⟨true, .spawned, .pipelineRunning, .idle, .notStarted⟩ rfl rfl

/-- C8 (amended): with hint `auto`, the strategies run in the order job →
result → admit_card, and a strategy is accepted exactly when it returns a
populated details dict — the description-key test only fixes the reported
content type and never rejects a populated dict, since the extractors always
emit the `full_description` key (possibly with an empty value); the request
fails only when every strategy returns the empty dict (400) or the final
strategy raises (500). -/
theorem fetch_details_auto_characterization (jobO resO admO : StratOutcome) :
    fetchDetails "auto" jobO resO admO =
      (match jobO with
       | .dict d => .ok ("job", d)
       | _ =>
         match resO with
         | .dict d => .ok ("result", d)
         | _ =>
           match admO with
           | .dict d => .ok ("admit_card", d)
           | .raised => .error .serverError
           | .emptyDict => .error .badRequest) := by
  cases jobO <;> cases resO <;> cases admO <;> rfl

/-- A page whose HTML yields no content region at all: the job extractor
still returns a populated dict with an empty description. -/
def emptyPage : Soup := ⟨[], none⟩

/-- C8 counterexample: crawling `emptyPage` gives a details dict whose
description is empty, yet the `auto` entry point accepts the job strategy
and answers success — it does not move on to result/admit_card and does not
fail, contradicting "accepting a strategy exactly when it yields a
non-empty description". -/
theorem auto_accepts_empty_description_cex :
    crawlJobDetails (some emptyPage) "http://x" =
      .dict { url := "http://x", full_description := "" } ∧
    fetchDetails "auto" (.dict { url := "http://x", full_description := "" })
        .emptyDict .emptyDict =
      .ok ("job", { url := "http://x", full_description := "" }) :=
  ⟨rfl, rfl⟩


/-- `pickLargest` returns `none` only on the empty candidate list. -/
theorem pickLargest_none {l : List Node} (h : pickLargest l = none) :
    l = [] := by
  cases l with
  | nil => rfl
  | cons n rest =>
      unfold pickLargest at h
      cases hr : pickLargest rest <;> rw [hr] at h <;> dsimp only at h
      · exact absurd h (by simp)
      · rename_i b
        by_cases hbn : b.text.length > n.text.length
        · rw [if_pos hbn] at h
          exact absurd h (by simp)
        · rw [if_neg hbn] at h
          exact absurd h (by simp)

/-- `pickLargest` returns a member of the candidate list. -/
theorem pickLargest_mem : ∀ {l : List Node} {n : Node},
    pickLargest l = some n → n ∈ l
  | [], n, h => by simp [pickLargest] at h
  | x :: rest, n, h => by
      unfold pickLargest at h
      cases hr : pickLargest rest <;> rw [hr] at h <;> dsimp only at h
      · cases h
        exact List.mem_cons_self _ _
      · rename_i b
        by_cases hbn : b.text.length > x.text.length
        · rw [if_pos hbn] at h
          cases h
          exact List.mem_cons_of_mem _ (pickLargest_mem hr)
        · rw [if_neg hbn] at h
          cases h
          exact List.mem_cons_self _ _

/-- `pickLargest` returns an element of maximal text length (the earliest
such element, as Python's stable descending sort followed by `[0]`). -/
theorem pickLargest_max : ∀ {l : List Node} {n : Node},
    pickLargest l = some n → ∀ m ∈ l, m.text.length ≤ n.text.length
  | [], n, h => by simp [pickLargest] at h
  | x :: rest, n, h => by
      unfold pickLargest at h
      cases hr : pickLargest rest <;> rw [hr] at h <;> dsimp only at h
      · have hrest : rest = [] := pickLargest_none hr
        cases h
        subst hrest
        intro m hm
        rw [List.mem_singleton.mp hm]
      · rename_i b
        by_cases hbn : b.text.length > x.text.length
        · rw [if_pos hbn] at h
          cases h
          intro m hm
          rcases List.mem_cons.mp hm with rfl | hmr
          · exact Nat.le_of_lt hbn
          · exact pickLargest_max hr m hmr
        · rw [if_neg hbn] at h
          cases h
          intro m hm
          rcases List.mem_cons.mp hm with rfl | hmr
          · exact Nat.le_refl _
          · exact Nat.le_trans (pickLargest_max hr m hmr) (Nat.le_of_not_lt hbn)


/-- C9 (amended): `_select_main_content` returns the first priority-selector
candidate whose text exceeds 300 characters; failing that, among the `div`
elements whose class attribute contains a content-like keyword *and whose
text exceeds 300 characters*, the one with the most text; failing that, the
body with header/footer/nav/aside removed. -/
theorem select_main_content_stages (s : Soup) :
    (∀ n, selectFromSelectors s contentSelectors = some n →
      selectMainContent s = some n) ∧
    (selectFromSelectors s contentSelectors = none →
      keywordCandidates s ≠ [] →
      ∃ n, selectMainContent s = some n ∧ n ∈ keywordCandidates s ∧
        ∀ m ∈ keywordCandidates s, m.text.length ≤ n.text.length) ∧
    (selectFromSelectors s contentSelectors = none →
      keywordCandidates s = [] →
      selectMainContent s = s.bodyCleaned) := by
  refine ⟨?_, ?_, ?_⟩
  · intro n h
    unfold selectMainContent
    rw [h]
  · intro h1 h2
    unfold selectMainContent
    rw [h1]
    cases hp : pickLargest (keywordCandidates s) with
    | none => exact absurd (pickLargest_none hp) h2
    | some n => exact ⟨n, rfl, pickLargest_mem hp, pickLargest_max hp⟩
  · intro h1 h2
    unfold selectMainContent
    rw [h1, h2]
    rfl

/-- Concrete nodes for the C9 witness: two qualifying keyword divs (both
over 300 characters of text) and a body fallback. -/
def bodyNode9 : Node := ⟨"body", [], none, "body text"⟩

def bigDivA : Node := ⟨"div", ["content"], none, ⟨List.replicate 301 'a'⟩⟩

def bigDivB : Node := ⟨"div", ["post"], none, ⟨List.replicate 400 'b'⟩⟩

def soupW9 : Soup := ⟨[bigDivA, bigDivB], some bodyNode9⟩

set_option maxRecDepth 8000 in
/-- Witness for `select_main_content_stages` at concrete input. -/
theorem select_main_content_stages_witness :
    selectFromSelectors soupW9 contentSelectors = none ∧
    keywordCandidates soupW9 ≠ [] ∧
    ∃ n, selectMainContent soupW9 = some n ∧ n ∈ keywordCandidates soupW9 ∧
      ∀ m ∈ keywordCandidates soupW9, m.text.length ≤ n.text.length :=
  ⟨by decide, by decide,
    (select_main_content_stages soupW9).2.1 (by decide) (by decide)⟩

/-- A keyword div below the 300-character threshold, on a page with a body
and no priority-selector hit. -/
def smallDiv : Node := ⟨"div", ["content"], none, "short"⟩

def soupCex9 : Soup := ⟨[smallDiv], some bodyNode9⟩

/-- C9 counterexample: the page has one `div` with a content-like class but
only 5 characters of text; the claim's keyword stage would return it (the
div with the most text among keyword divs), but the code also demands more
than 300 characters there, skips it, and returns the cleaned body. -/
theorem keyword_scan_threshold_cex :
    selectFromSelectors soupCex9 contentSelectors = none ∧
    keywordCandidatesClaimed soupCex9 = [smallDiv] ∧
    selectMainContentClaimed soupCex9 = some smallDiv ∧
    selectMainContent soupCex9 = some bodyNode9 ∧
    smallDiv ≠ bodyNode9 := by decide

end JobPortal
